import Mathlib

/-
  Verification of the session-orchestration core of
  inworld-ai/zoom-demeanor-evaluator-node.

  Shallow embedding of:
  - the transcript buffer (src/src/inworld/inworldService.js, addTranscript,
    clearTranscriptHistory),
  - the streaming result reducers getGuidance and getEvaluationScores
    (same file),
  - the visual sampling gate and webhook handling
    (src/src/rtms/websocketHandler.js),
  - the viewer broadcast hub (broadcastToClients, same file),
  - the guarded shutdown orchestrator (src/unnamed/part_002, shutdown).
-/

namespace ZoomDemeanor

/- JavaScript value model: transcript entries are built as JS object literals
   with an open metadata spread, so we model them as ordered key/value lists
   where a later binding overrides an earlier one (JS spread semantics). -/
inductive JsVal where
  | str (s : String)
  | num (n : Int)
  deriving DecidableEq, Repr

abbrev JsObj := List (String × JsVal)

/- Property lookup on a JS object literal: the last binding for a key wins,
   mirroring the semantics of spreading later properties over earlier ones. -/
def objGet (o : JsObj) (k : String) : Option JsVal :=
  o.foldl (fun acc p => if p.1 = k then some p.2 else acc) none

/- inworldService.js line 66: keep only last 50 entries. -/
def TRANSCRIPT_CAP : Nat := 50

/- inworldService.js lines 63-68: transcriptHistory.push(entry) followed by
   transcriptHistory = transcriptHistory.slice(-50) when length > 50.
   JS slice(-50) keeps the last 50 elements, i.e. drops length - 50 from
   the front. -/
def pushCapped (hist : List α) (entry : α) : List α :=
  if (hist ++ [entry]).length > TRANSCRIPT_CAP then
    (hist ++ [entry]).drop ((hist ++ [entry]).length - TRANSCRIPT_CAP)
  else hist ++ [entry]

/- Spec-side characterisation (section 8 of the spec): the most recent n
   entries of the arrival sequence, in arrival order. -/
def lastN (n : Nat) (l : List α) : List α := l.drop (l.length - n)

/- inworldService.js lines 55-72: addTranscript builds the entry object
   with speaker, text, timestamp := Date.now() and then spreads metadata
   over it, pushes it and caps the history.  Returns the entry and the new
   history; the JS function mutates the module-level transcriptHistory,
   which is passed and returned explicitly here. -/
def addTranscript (speaker text : String) (metadata : JsObj) (now : Int)
    (hist : List JsObj) : JsObj × List JsObj :=
  let entry : JsObj :=
    [("speaker", JsVal.str speaker), ("text", JsVal.str text),
     ("timestamp", JsVal.num now)] ++ metadata
  (entry, pushCapped hist entry)

/- inworldService.js lines 84-87. -/
def clearTranscriptHistory : List JsObj := []

lemma lastN_length_le (n : Nat) (l : List α) : (lastN n l).length ≤ n := by
  simp only [lastN, List.length_drop]
  omega

lemma lastN_of_length_le {n : Nat} {l : List α} (h : l.length ≤ n) :
    lastN n l = l := by
  unfold lastN
  rw [Nat.sub_eq_zero_of_le h, List.drop_zero]

lemma pushCapped_lastN (xs : List α) (x : α) :
    pushCapped (lastN TRANSCRIPT_CAP xs) x = lastN TRANSCRIPT_CAP (xs ++ [x]) := by
  by_cases h : xs.length ≤ TRANSCRIPT_CAP
  · rw [lastN_of_length_le h]
    by_cases h2 : xs.length + 1 ≤ TRANSCRIPT_CAP
    · rw [lastN_of_length_le (by simp; omega)]
      simp only [pushCapped, List.length_append, List.length_cons, List.length_nil]
      rw [if_neg (by omega)]
    · have hx : xs.length = TRANSCRIPT_CAP := by omega
      simp only [pushCapped, lastN, List.length_append, List.length_cons,
        List.length_nil, hx]
      rw [if_pos (by omega)]
  · push_neg at h
    unfold pushCapped lastN
    simp only [TRANSCRIPT_CAP] at h ⊢
    simp only [List.length_append, List.length_drop, List.length_cons,
      List.length_nil]
    rw [if_pos (by omega)]
    rw [List.drop_append_eq_append_drop, List.drop_append_eq_append_drop,
      List.drop_drop]
    simp only [List.length_drop]
    have e1 : xs.length - 50 + (xs.length - (xs.length - 50) + (0 + 1) - 50)
        = xs.length + (0 + 1) - 50 := by omega
    have e2 : xs.length - (xs.length - 50) + (0 + 1) - 50
          - (xs.length - (xs.length - 50))
        = xs.length + (0 + 1) - 50 - xs.length := by omega
    rw [e1, e2]

lemma foldl_pushCapped (entries : List α) :
    entries.foldl pushCapped [] = lastN TRANSCRIPT_CAP entries := by
  induction entries using List.reverseRecOn with
  | nil => simp [lastN]
  | append_singleton xs x ih =>
      rw [List.foldl_append, ih]
      simpa using pushCapped_lastN xs x

/-- Claim C1: for every sequence of append calls to the transcript buffer,
the buffer length is at most 50 at all times, and the retained entries are
exactly the most recently appended (at most 50) entries in their original
arrival order, evicting only from the front and never reordering.  The fold
of pushCapped over any arrival sequence equals the length-50 suffix of that
sequence; since the statement is universally quantified over arrival
sequences it holds after every prefix, i.e. at all times. -/
theorem transcript_buffer_capped (entries : List JsObj) :
    (entries.foldl pushCapped []).length ≤ TRANSCRIPT_CAP
    ∧ entries.foldl pushCapped [] = lastN TRANSCRIPT_CAP entries := by
  refine ⟨?_, foldl_pushCapped entries⟩
  rw [foldl_pushCapped]
  exact lastN_length_le _ _

lemma objGet_step_isSome (k : String) :
    ∀ (o : JsObj) (v : JsVal),
      ∃ w, o.foldl (fun a p => if p.1 = k then some p.2 else a) (some v) = some w := by
  intro o
  induction o with
  | nil => exact fun v => ⟨v, rfl⟩
  | cons p rest ih =>
      intro v
      by_cases hp : p.1 = k
      · simpa [hp] using ih p.2
      · simpa [hp] using ih v

lemma foldl_of_objGet_none (k : String) :
    ∀ (o : JsObj), objGet o k = none →
      ∀ acc, o.foldl (fun a p => if p.1 = k then some p.2 else a) acc = acc := by
  intro o
  induction o with
  | nil => exact fun _ _ => rfl
  | cons p rest ih =>
      intro h acc
      by_cases hp : p.1 = k
      · exfalso
        unfold objGet at h
        rw [List.foldl_cons, if_pos hp] at h
        obtain ⟨w, hw⟩ := objGet_step_isSome k rest p.2
        rw [h] at hw
        exact Option.noConfusion hw
      · unfold objGet at h
        rw [List.foldl_cons, if_neg hp] at h
        rw [List.foldl_cons, if_neg hp]
        exact ih h acc

/-- Claim C9 counterexample: addTranscript builds the entry as
speaker, text, timestamp := Date.now() and then spreads the metadata map
over those fields, so a metadata entry with key timestamp overrides the
stamped current time.  At append time 999 with metadata carrying
timestamp 123, the resulting entry does not carry 999. -/
theorem addTranscript_metadata_overrides_timestamp :
    ¬ objGet (addTranscript "Alice" "hi" [("timestamp", JsVal.num 123)] 999 []).1
        "timestamp" = some (JsVal.num 999) := by
  decide

/-- Claim C9 (amended): every addTranscript call succeeds, returning the
freshly built entry and the capped extension of the history by that entry,
and the entry carries the current time as its timestamp for every metadata
map that does not itself contain a timestamp key; a metadata timestamp key
(as the transcript callback in websocketHandler.js passes) overrides the
stamped time. -/
theorem addTranscript_stamps_now (speaker text : String) (metadata : JsObj)
    (now : Int) (hist : List JsObj)
    (hmeta : objGet metadata "timestamp" = none) :
    objGet (addTranscript speaker text metadata now hist).1 "timestamp"
      = some (JsVal.num now)
    ∧ (addTranscript speaker text metadata now hist).2
      = pushCapped hist (addTranscript speaker text metadata now hist).1 := by
  refine ⟨?_, rfl⟩
  show objGet
    ([("speaker", JsVal.str speaker), ("text", JsVal.str text),
      ("timestamp", JsVal.num now)] ++ metadata) "timestamp" = some (JsVal.num now)
  unfold objGet
  rw [List.foldl_append]
  rw [foldl_of_objGet_none "timestamp" metadata hmeta]
  simp

/-- Claim C9 witness: a concrete append at time 999 with a metadata map
holding only a userId key yields an entry stamped 999. -/
theorem addTranscript_stamps_now_witness :
    objGet (addTranscript "Alice" "hi" [("userId", JsVal.str "u1")] 999 []).1
      "timestamp" = some (JsVal.num 999) :=
  (addTranscript_stamps_now "Alice" "hi" [("userId", JsVal.str "u1")] 999 []
    (by decide)).1

/- ----- Streaming result reducers (inworldService.js) ----- -/

/- One chunk of a pipeline output stream: it may carry textual content and a
   done marker (Content branch of processResponse), carry no recognized
   content (default branch), or raise when consumed. -/
inductive Chunk where
  | content (s : String) (done : Bool)
  | noContent (done : Bool)
  | throws
  deriving DecidableEq, Repr

inductive PipeError where
  | raised
  | chunkRaised
  deriving DecidableEq, Repr

/- The observable behaviour of one pipeline invocation
   (activeGraph.start(graphInput)): the call itself may raise, may return no
   outputStream, or may yield a stream of chunks. -/
inductive PipelineResult where
  | throws
  | noStream
  | stream (chunks : List Chunk)
  deriving DecidableEq, Repr

/- inworldService.js lines 119-146 (and 189-223): consume the stream chunk
   by chunk, appending the content of every content-carrying chunk to the
   accumulator, stopping when a chunk has done = true; a chunk that raises
   aborts consumption with an error that the surrounding try/catch turns
   into the fallback. -/
def accumulateChunks : List Chunk → String → Except PipeError String
  | [], acc => Except.ok acc
  | Chunk.throws :: _, _ => Except.error PipeError.chunkRaised
  | Chunk.content s done :: rest, acc =>
      if done then Except.ok (acc ++ s) else accumulateChunks rest (acc ++ s)
  | Chunk.noContent done :: rest, acc =>
      if done then Except.ok acc else accumulateChunks rest acc

def guidanceStart : String :=
  "Start speaking to receive guidance on your communication style."

def guidanceUnable : String :=
  "Unable to generate guidance at this time."

def guidanceEmptyFallback : String :=
  "Keep up the good work! Continue being friendly, professional, and helpful."

/- inworldService.js lines 100-150: body of the try block of getGuidance.
   A missing output stream returns the fixed unable string; a raise at
   invocation or during chunk consumption is an error for the catch. -/
def getGuidanceTry (p : PipelineResult) : Except PipeError String :=
  match p with
  | PipelineResult.throws => Except.error PipeError.raised
  | PipelineResult.noStream => Except.ok guidanceUnable
  | PipelineResult.stream cs =>
      match accumulateChunks cs "" with
      | Except.error e => Except.error e
      | Except.ok t =>
          Except.ok (if t = "" then guidanceEmptyFallback else t)

/- inworldService.js lines 93-155: getGuidance.  The pipeline behaviour p
   stands for what activeGraph.start does; the second component counts how
   many times the pipeline was invoked. -/
def getGuidance (p : PipelineResult) (transcriptHistory : List JsObj) :
    String × Nat :=
  if transcriptHistory.length = 0 then (guidanceStart, 0)
  else
    ((match getGuidanceTry p with
      | Except.ok s => s
      | Except.error _ => guidanceUnable), 1)

structure EvaluationScores where
  professionalism : Int
  friendliness : Int
  helpfulness : Int
  deriving DecidableEq, Repr

def defaultScores : EvaluationScores := ⟨5, 5, 5⟩

/- The three upstream score fields as read off the parsed JSON object; none
   models a missing or null field. -/
structure UpstreamScores where
  professionalism : Option Int
  friendliness : Option Int
  helpfulness : Option Int
  deriving DecidableEq, Repr

/- JS disjunction scores.x || 5: a missing, null or zero (falsy) value is
   replaced by 5 before clamping. -/
def jsOrDefault5 (v : Option Int) : Int :=
  match v with
  | none => 5
  | some n => if n = 0 then 5 else n

/- inworldService.js lines 235-237: Math.min(10, Math.max(1, v || 5)). -/
def sanitizeField (v : Option Int) : Int :=
  min 10 (max 1 (jsOrDefault5 v))

/- inworldService.js lines 234-238: the validated and sanitized result. -/
def sanitizeScores (u : UpstreamScores) : EvaluationScores :=
  ⟨sanitizeField u.professionalism, sanitizeField u.friendliness,
    sanitizeField u.helpfulness⟩

/- inworldService.js lines 170-250: body of the try block of
   getEvaluationScores.  The parse parameter stands for JSON.parse plus the
   reads of the three fields; none models a parse failure, whose catch
   returns the default scores. -/
def getEvaluationScoresTry (p : PipelineResult)
    (parse : String → Option UpstreamScores) : Except PipeError EvaluationScores :=
  match p with
  | PipelineResult.throws => Except.error PipeError.raised
  | PipelineResult.noStream => Except.ok defaultScores
  | PipelineResult.stream cs =>
      match accumulateChunks cs "" with
      | Except.error e => Except.error e
      | Except.ok t =>
          if t = "" then Except.ok defaultScores
          else
            match parse t with
            | none => Except.ok defaultScores
            | some u => Except.ok (sanitizeScores u)

/- inworldService.js lines 161-251: getEvaluationScores, with the pipeline
   invocation count as second component. -/
def getEvaluationScores (p : PipelineResult)
    (parse : String → Option UpstreamScores)
    (transcriptHistory : List JsObj) : EvaluationScores × Nat :=
  if transcriptHistory.length = 0 then (defaultScores, 0)
  else
    ((match getEvaluationScoresTry p parse with
      | Except.ok s => s
      | Except.error _ => defaultScores), 1)

def scoresInRange (s : EvaluationScores) : Prop :=
  1 ≤ s.professionalism ∧ s.professionalism ≤ 10
    ∧ 1 ≤ s.friendliness ∧ s.friendliness ≤ 10
    ∧ 1 ≤ s.helpfulness ∧ s.helpfulness ≤ 10

instance (s : EvaluationScores) : Decidable (scoresInRange s) := by
  unfold scoresInRange
  infer_instance

lemma sanitizeField_in_range (v : Option Int) :
    1 ≤ sanitizeField v ∧ sanitizeField v ≤ 10 := by
  unfold sanitizeField jsOrDefault5
  rcases v with _ | n
  · omega
  · by_cases h : n = 0
    · simp [h]
    · simp only [if_neg h]
      omega

lemma sanitizeScores_in_range (u : UpstreamScores) :
    scoresInRange (sanitizeScores u) := by
  obtain ⟨a1, a2⟩ := sanitizeField_in_range u.professionalism
  obtain ⟨b1, b2⟩ := sanitizeField_in_range u.friendliness
  obtain ⟨c1, c2⟩ := sanitizeField_in_range u.helpfulness
  exact ⟨a1, a2, b1, b2, c1, c2⟩

lemma defaultScores_in_range : scoresInRange defaultScores := by
  unfold scoresInRange defaultScores
  norm_num

lemma getEvaluationScoresTry_in_range (p : PipelineResult)
    (parse : String → Option UpstreamScores) (s : EvaluationScores)
    (h : getEvaluationScoresTry p parse = Except.ok s) : scoresInRange s := by
  rcases p with _ | _ | cs
  · simp [getEvaluationScoresTry] at h
  · simp only [getEvaluationScoresTry] at h
    injection h with h
    rw [← h]
    exact defaultScores_in_range
  · simp only [getEvaluationScoresTry] at h
    split at h
    · simp at h
    · split at h
      · injection h with h
        rw [← h]
        exact defaultScores_in_range
      · split at h
        · injection h with h
          rw [← h]
          exact defaultScores_in_range
        · injection h with h
          rw [← h]
          exact sanitizeScores_in_range _

lemma getEvaluationScores_in_range (p : PipelineResult)
    (parse : String → Option UpstreamScores) (hist : List JsObj) :
    scoresInRange (getEvaluationScores p parse hist).1 := by
  unfold getEvaluationScores
  split
  · exact defaultScores_in_range
  · rcases htry : getEvaluationScoresTry p parse with e | s
    · exact defaultScores_in_range
    · exact getEvaluationScoresTry_in_range p parse s htry

/-- Claim C2: every field of the result of getEvaluationScores lies in
[1,10] whatever the upstream pipeline, parse outcome and history are; a
missing or falsy (zero/null) upstream field is defaulted to 5 and then
clamped, an over-range value is clamped to 10, a negative value to 1, and
an in-range value is unchanged; and the concrete upstream object with
professionalism 0, friendliness 15 and helpfulness 7 reduces to scores
5, 10, 7. -/
theorem evaluation_scores_clamped (p : PipelineResult)
    (parse : String → Option UpstreamScores) (transcriptHistory : List JsObj) :
    scoresInRange (getEvaluationScores p parse transcriptHistory).1
    ∧ (∀ v : Int, 10 < v → sanitizeField (some v) = 10)
    ∧ (∀ v : Int, v < 0 → sanitizeField (some v) = 1)
    ∧ (∀ v : Int, 1 ≤ v → v ≤ 10 → sanitizeField (some v) = v)
    ∧ sanitizeField (some 0) = 5
    ∧ sanitizeField none = 5
    ∧ getEvaluationScores (PipelineResult.stream [Chunk.content "scores" true])
        (fun _ => some ⟨some 0, some 15, some 7⟩) [[]]
        = (⟨5, 10, 7⟩, 1) := by
  refine ⟨getEvaluationScores_in_range p parse transcriptHistory,
    ?_, ?_, ?_, by decide, by decide, by decide⟩
  · intro v hv
    unfold sanitizeField
    simp only [jsOrDefault5]
    rw [if_neg (show ¬ v = 0 by omega)]
    omega
  · intro v hv
    unfold sanitizeField
    simp only [jsOrDefault5]
    rw [if_neg (show ¬ v = 0 by omega)]
    omega
  · intro v hv1 hv2
    unfold sanitizeField
    simp only [jsOrDefault5]
    rw [if_neg (show ¬ v = 0 by omega)]
    omega

/-- Claim C2 witness: instantiation at concrete inputs, discharging the
range hypotheses at 15, minus 3 and 7. -/
theorem evaluation_scores_clamped_witness :
    sanitizeField (some 15) = 10 ∧ sanitizeField (some (-3)) = 1
    ∧ sanitizeField (some 7) = 7
    ∧ scoresInRange
        (getEvaluationScores PipelineResult.throws (fun _ => none) [[]]).1 :=
  ⟨(evaluation_scores_clamped PipelineResult.throws (fun _ => none) [[]]).2.1
      15 (by norm_num),
   (evaluation_scores_clamped PipelineResult.throws (fun _ => none) [[]]).2.2.1
      (-3) (by norm_num),
   (evaluation_scores_clamped PipelineResult.throws (fun _ => none) [[]]).2.2.2.1
      7 (by norm_num) (by norm_num),
   (evaluation_scores_clamped PipelineResult.throws (fun _ => none) [[]]).1⟩

/-- Claim C3: on an empty transcript buffer both reducers short-circuit
with their fixed defaults, the static encouragement string for guidance
and the all-5 scores, with zero pipeline invocations. -/
theorem empty_buffer_short_circuits (p : PipelineResult)
    (parse : String → Option UpstreamScores) :
    getGuidance p [] = (guidanceStart, 0)
    ∧ getEvaluationScores p parse [] = (defaultScores, 0) :=
  ⟨rfl, rfl⟩

/-- Claim C4: whatever the pipeline does, raising on invocation, returning
no output stream, failing during chunk consumption, or producing score
text the parser rejects, getGuidance and getEvaluationScores return their
fixed fallback values and never let the failure reach the caller. -/
theorem pipeline_failures_never_propagate (transcriptHistory : List JsObj)
    (p : PipelineResult) (parse : String → Option UpstreamScores)
    (hne : transcriptHistory ≠ []) :
    (p = PipelineResult.throws →
      getGuidance p transcriptHistory = (guidanceUnable, 1)
      ∧ getEvaluationScores p parse transcriptHistory = (defaultScores, 1))
    ∧ (p = PipelineResult.noStream →
      getGuidance p transcriptHistory = (guidanceUnable, 1)
      ∧ getEvaluationScores p parse transcriptHistory = (defaultScores, 1))
    ∧ (∀ cs e, p = PipelineResult.stream cs →
        accumulateChunks cs "" = Except.error e →
      getGuidance p transcriptHistory = (guidanceUnable, 1)
      ∧ getEvaluationScores p parse transcriptHistory = (defaultScores, 1))
    ∧ (∀ cs t, p = PipelineResult.stream cs →
        accumulateChunks cs "" = Except.ok t → ¬ t = "" → parse t = none →
      getEvaluationScores p parse transcriptHistory = (defaultScores, 1)) := by
  have hlen : ¬ transcriptHistory.length = 0 := by
    simp only [List.length_eq_zero]
    exact hne
  refine ⟨?_, ?_, ?_, ?_⟩
  · rintro rfl
    constructor
    · simp [getGuidance, getGuidanceTry, hlen]
    · simp [getEvaluationScores, getEvaluationScoresTry, hlen]
  · rintro rfl
    constructor
    · simp [getGuidance, getGuidanceTry, hlen]
    · simp [getEvaluationScores, getEvaluationScoresTry, hlen]
  · rintro cs e rfl hacc
    constructor
    · simp [getGuidance, getGuidanceTry, hlen, hacc]
    · simp [getEvaluationScores, getEvaluationScoresTry, hlen, hacc]
  · rintro cs t rfl hacc ht hparse
    simp [getEvaluationScores, getEvaluationScoresTry, hlen, hacc, ht, hparse]

/-- Claim C4 witness: the fallback on a raising pipeline, on a stream that
fails during chunk consumption, and on unparseable score text, at concrete
inputs. -/
theorem pipeline_failures_never_propagate_witness :
    getGuidance PipelineResult.throws [[]] = (guidanceUnable, 1)
    ∧ getEvaluationScores (PipelineResult.stream [Chunk.throws])
        (fun _ => none) [[]] = (defaultScores, 1)
    ∧ getEvaluationScores (PipelineResult.stream [Chunk.content "notjson" true])
        (fun _ => none) [[]] = (defaultScores, 1) :=
  ⟨((pipeline_failures_never_propagate [[]] PipelineResult.throws
      (fun _ => none) (by simp)).1 rfl).1,
   ((pipeline_failures_never_propagate [[]] (PipelineResult.stream [Chunk.throws])
      (fun _ => none) (by simp)).2.2.1 [Chunk.throws] PipeError.chunkRaised
      rfl rfl).2,
   (pipeline_failures_never_propagate [[]]
      (PipelineResult.stream [Chunk.content "notjson" true]) (fun _ => none)
      (by simp)).2.2.2 [Chunk.content "notjson" true] "notjson" rfl rfl
      (by decide) rfl⟩

/- ----- Visual sampling gate (websocketHandler.js lines 228-277) ----- -/

def SCREENSHOT_INTERVAL : Int := 5000

/- websocketHandler.js lines 267-268: closure state of the onVideoData
   callback, created fresh per session with lastScreenshotTime = 0. -/
def initialLastScreenshotTime : Int := 0

/- websocketHandler.js lines 232-277: one onVideoData callback delivery at
   wall-clock time now.  Returns the new lastScreenshotTime together with
   the number of visual analyses triggered by this frame.  The state update
   lastScreenshotTime := now is performed synchronously at gate time, before
   the asynchronous screenshot write and analysis run, so the returned state
   does not depend on the analysis outcome. -/
def onVideoFrame (lastScreenshotTime : Int) (now : Int) : Int × Nat :=
  if now - lastScreenshotTime ≥ SCREENSHOT_INTERVAL then (now, 1)
  else (lastScreenshotTime, 0)

/- A sequence of frame deliveries folded through the gate, counting the
   total number of triggered analyses. -/
def runFrames (lastScreenshotTime : Int) : List Int → Int × Nat
  | [] => (lastScreenshotTime, 0)
  | t :: ts =>
      let st := onVideoFrame lastScreenshotTime t
      let rest := runFrames st.1 ts
      (rest.1, st.2 + rest.2)

/-- Claim C6: the visual sampling gate triggers at most one analysis per
5000 ms.  A frame arriving less than 5000 ms after the last sample is
discarded with no state change and no invocation; a triggering frame
updates lastScreenshotTime to now at gate time (independently of the
pending analysis); two frames 1000 ms apart trigger at most one analysis;
any pair of frames that both trigger is at least 5000 ms apart; and two
frames 6000 ms apart with the gate open for the first trigger two. -/
theorem visual_sampling_gate (last t : Int) :
    (t - last < SCREENSHOT_INTERVAL → onVideoFrame last t = (last, 0))
    ∧ (SCREENSHOT_INTERVAL ≤ t - last → onVideoFrame last t = (t, 1))
    ∧ (runFrames last [t, t + 1000]).2 ≤ 1
    ∧ ((runFrames last [t, t + 1000]).2 = 2 → False)
    ∧ (SCREENSHOT_INTERVAL ≤ t - last →
        (runFrames last [t, t + 6000]).2 = 2) := by
  refine ⟨?_, ?_, ?_, ?_, ?_⟩
  · intro h
    unfold onVideoFrame
    rw [if_neg (by omega)]
  · intro h
    unfold onVideoFrame
    rw [if_pos (by omega)]
  · unfold runFrames runFrames runFrames onVideoFrame
    by_cases h : SCREENSHOT_INTERVAL ≤ t - last
    · rw [if_pos (by omega)]
      simp only []
      rw [if_neg (by unfold SCREENSHOT_INTERVAL; omega)]
      simp
    · rw [if_neg (by omega)]
      simp only []
      split <;> simp
  · intro h2
    unfold runFrames runFrames runFrames onVideoFrame at h2
    by_cases h : SCREENSHOT_INTERVAL ≤ t - last
    · rw [if_pos (by omega)] at h2
      simp only [] at h2
      rw [if_neg (by unfold SCREENSHOT_INTERVAL; omega)] at h2
      simp at h2
    · rw [if_neg (by omega)] at h2
      simp only [] at h2
      split at h2 <;> simp at h2
  · intro h
    unfold runFrames runFrames runFrames onVideoFrame
    rw [if_pos (by omega)]
    simp only []
    rw [if_pos (by unfold SCREENSHOT_INTERVAL; omega)]
    simp

/-- Claim C6 witness: with the last sample at time 0, frames at 10000 and
11000 trigger exactly one analysis, and frames at 10000 and 16000 trigger
two; a frame at time 4000 after a sample at 0 is discarded unchanged. -/
theorem visual_sampling_gate_witness :
    onVideoFrame 0 4000 = (0, 0)
    ∧ (runFrames 0 [10000, 10000 + 1000]).2 ≤ 1
    ∧ (runFrames 0 [10000, 10000 + 6000]).2 = 2 :=
  ⟨(visual_sampling_gate 0 4000).1 (by norm_num [SCREENSHOT_INTERVAL]),
   (visual_sampling_gate 0 10000).2.2.1,
   (visual_sampling_gate 0 10000).2.2.2.2 (by norm_num [SCREENSHOT_INTERVAL])⟩

/-- Claim C10: a fresh session initialises lastScreenshotTime to 0, so the
first delivered video frame always passes the gate, updates the state and
triggers one screenshot write and visual analysis, whenever the session
was created: wall-clock now (milliseconds since the epoch) is at least
5000. -/
theorem first_frame_always_sampled (now : Int)
    (hnow : SCREENSHOT_INTERVAL ≤ now) :
    onVideoFrame initialLastScreenshotTime now = (now, 1) := by
  unfold onVideoFrame initialLastScreenshotTime
  rw [if_pos (by omega)]

/-- Claim C10 witness: the first frame of a session at wall-clock time
1700000000000 triggers the analysis. -/
theorem first_frame_always_sampled_witness :
    onVideoFrame initialLastScreenshotTime 1700000000000 = (1700000000000, 1) :=
  first_frame_always_sampled 1700000000000 (by norm_num [SCREENSHOT_INTERVAL])

/- ----- Viewer broadcast hub (websocketHandler.js lines 99-107) ----- -/

/- ws readyState codes; OPEN = 1. -/
def WS_OPEN : Nat := 1

/- A registered viewer connection: identity plus current readyState. -/
structure Viewer where
  vid : Nat
  readyState : Nat
  deriving DecidableEq, Repr

/- Observable actions of one broadcastToClients call. -/
inductive SendEvent where
  | serializeEv (payload : String)
  | sendEv (vid : Nat) (payload : String)
  deriving DecidableEq, Repr

def SendEvent.isSerialize : SendEvent → Bool
  | SendEvent.serializeEv _ => true
  | SendEvent.sendEv _ _ => false

/- websocketHandler.js lines 100-107: JSON.stringify the message once, then
   for each registered connection send the serialized string exactly when
   its readyState is OPEN.  The serializer stands for JSON.stringify; the
   call returns its action trace and the (unchanged) viewer set. -/
def broadcastToClients {μ : Type} (serialize : μ → String)
    (wsConnections : List Viewer) (message : μ) :
    List SendEvent × List Viewer :=
  let messageStr := serialize message
  (SendEvent.serializeEv messageStr ::
      wsConnections.filterMap (fun ws =>
        if ws.readyState = WS_OPEN then some (SendEvent.sendEv ws.vid messageStr)
        else none),
    wsConnections)

lemma filterMap_ite_eq {α β : Type} (p : α → Prop) [DecidablePred p]
    (g : α → β) (l : List α) :
    l.filterMap (fun a => if p a then some (g a) else none)
      = (l.filter (fun a => decide (p a))).map g := by
  induction l with
  | nil => rfl
  | cons a rest ih =>
      by_cases h : p a
      · simp only [List.filterMap_cons, if_pos h, List.filter_cons]
        rw [if_pos (by simp [h])]
        simp only [List.map_cons]
        rw [ih]
      · simp only [List.filterMap_cons, if_neg h, List.filter_cons]
        rw [if_neg (by simp [h])]
        exact ih

/-- Claim C7: broadcastToClients serializes the event exactly once (its
action trace holds exactly one serialize event), sends that identical
payload to exactly the viewers whose connection is in the OPEN state, in
registration order, silently skipping the non-ready viewers, and leaves
the viewer set unchanged (nobody is unregistered by a broadcast). -/
theorem broadcast_serializes_once_and_skips_not_ready {μ : Type}
    (serialize : μ → String) (wsConnections : List Viewer) (message : μ) :
    ((broadcastToClients serialize wsConnections message).1.filter
        SendEvent.isSerialize).length = 1
    ∧ (broadcastToClients serialize wsConnections message).1
      = SendEvent.serializeEv (serialize message) ::
          (wsConnections.filter
              (fun ws => decide (ws.readyState = WS_OPEN))).map
            (fun ws => SendEvent.sendEv ws.vid (serialize message))
    ∧ (broadcastToClients serialize wsConnections message).2 = wsConnections := by
  have htrace : (broadcastToClients serialize wsConnections message).1
      = SendEvent.serializeEv (serialize message) ::
          (wsConnections.filter
              (fun ws => decide (ws.readyState = WS_OPEN))).map
            (fun ws => SendEvent.sendEv ws.vid (serialize message)) := by
    unfold broadcastToClients
    simp only [List.cons.injEq, true_and]
    exact filterMap_ite_eq (fun ws => ws.readyState = WS_OPEN)
      (fun ws => SendEvent.sendEv ws.vid (serialize message)) wsConnections
  refine ⟨?_, htrace, rfl⟩
  rw [htrace]
  simp only [List.filter_cons]
  rw [if_pos (by simp [SendEvent.isSerialize])]
  simp only [List.length_cons, Nat.add_left_eq_self, List.length_eq_zero]
  rw [List.filter_map]
  simp [Function.comp, SendEvent.isSerialize]

/- ----- Webhook lifecycle handling (websocketHandler.js lines 109-286) -- -/

/- The state the webhook handler reads and mutates: the keys of the
   rtmsClients map (insertion-ordered, keyed by rtms_stream_id, which in
   the JS source may be undefined) and the shared transcript history. -/
structure HandlerState where
  rtmsClients : List (Option String)
  transcriptHistory : List JsObj
  deriving DecidableEq, Repr

inductive BroadcastMsg where
  | meetingStarted (streamId : Option String)
  | meetingStopped (streamId : Option String)
  deriving DecidableEq, Repr

/- Calls made on RTMS client handles. -/
inductive ClientAction where
  | leave (streamId : Option String)
  | join (streamId : Option String)
  deriving DecidableEq, Repr

/- JS Map.set: replaces in place when the key exists, appends otherwise. -/
def jsMapSet (keys : List (Option String)) (k : Option String) :
    List (Option String) :=
  if k ∈ keys then keys else keys ++ [k]

/- websocketHandler.js lines 110-286: handleWebhookEvent.  For a stopped
   event: missing stream id, or a stream id with no registered client,
   logs and returns with no state change, no broadcast and no client call;
   a known stream id leaves the meeting, deletes the registry entry, clears
   the transcript history and broadcasts meeting_stopped.  A non-started,
   non-stopped event is ignored.  A started event registers a fresh client
   under the stream id, clears the history, broadcasts meeting_started,
   installs the media callbacks and joins. -/
def handleWebhookEvent (st : HandlerState) (event : String)
    (streamId : Option String) :
    HandlerState × List BroadcastMsg × List ClientAction :=
  if event = "meeting.rtms_stopped" then
    match streamId with
    | none => (st, [], [])
    | some sid =>
        if some sid ∈ st.rtmsClients then
          (⟨st.rtmsClients.erase (some sid), clearTranscriptHistory⟩,
            [BroadcastMsg.meetingStopped (some sid)],
            [ClientAction.leave (some sid)])
        else (st, [], [])
  else if ¬ event = "meeting.rtms_started" then (st, [], [])
  else
    (⟨jsMapSet st.rtmsClients streamId, clearTranscriptHistory⟩,
      [BroadcastMsg.meetingStarted streamId],
      [ClientAction.join streamId])

/-- Claim C8: a stopped lifecycle event whose stream id has no session in
the registry is a logged no-op: handleWebhookEvent returns (totally, so no
exception), leaves the state unchanged (registry not mutated, transcript
buffer not cleared), emits no broadcast and performs no media-source
disconnect. -/
theorem stopped_unknown_stream_is_noop (st : HandlerState) (sid : String)
    (hmiss : ¬ some sid ∈ st.rtmsClients) :
    handleWebhookEvent st "meeting.rtms_stopped" (some sid) = (st, [], []) := by
  unfold handleWebhookEvent
  rw [if_pos rfl]
  simp only []
  rw [if_neg hmiss]

/-- Claim C8 witness: a concrete stopped event for stream id s2 against a
registry holding only s1 leaves everything untouched. -/
theorem stopped_unknown_stream_is_noop_witness :
    handleWebhookEvent ⟨[some "s1"], [[]]⟩ "meeting.rtms_stopped" (some "s2")
      = (⟨[some "s1"], [[]]⟩, [], []) :=
  stopped_unknown_stream_is_noop ⟨[some "s1"], [[]]⟩ "s2" (by decide)

/- ----- Shutdown orchestrator (src/unnamed/part_002, lines 98-188) ----- -/

/- The teardown side effects of one full shutdown run, in source order:
   wsHandler.cleanup closes and clears the viewers, disconnects and clears
   the RTMS sessions and closes the WebSocket server; cleanupInworld stops
   the analysis pipelines and clears the transcript buffer; then the HTTP
   server (listening transport) is closed and the Inworld runtime stopped. -/
inductive TeardownStep where
  | closeViewers
  | disconnectSessions
  | closeWsServer
  | stopPipelines
  | clearBuffer
  | closeHttpServer
  | stopRuntime
  deriving DecidableEq, Repr

/- One atomic step of an in-flight shutdown call.  The guard is the
   synchronous check-and-set of isShuttingDown (lines 102-105: no await
   between the read and the write, so it is one event-loop atom); each
   teardown step is separated from the next by an await and is therefore a
   separate atom an interleaved call can run between. -/
inductive Action where
  | guard
  | effect (e : TeardownStep)
  deriving DecidableEq, Repr

/- The program run by one shutdown() call. -/
def shutdownProg : List Action :=
  [Action.guard,
   Action.effect TeardownStep.closeViewers,
   Action.effect TeardownStep.disconnectSessions,
   Action.effect TeardownStep.closeWsServer,
   Action.effect TeardownStep.stopPipelines,
   Action.effect TeardownStep.clearBuffer,
   Action.effect TeardownStep.closeHttpServer,
   Action.effect TeardownStep.stopRuntime]

def teardownSeq : List TeardownStep :=
  [TeardownStep.closeViewers, TeardownStep.disconnectSessions,
   TeardownStep.closeWsServer, TeardownStep.stopPipelines,
   TeardownStep.clearBuffer, TeardownStep.closeHttpServer,
   TeardownStep.stopRuntime]

/- Process state: the isShuttingDown flag and the log of performed
   teardown side effects. -/
structure SysState where
  isShuttingDown : Bool
  effects : List TeardownStep
  deriving DecidableEq, Repr

/- Run one call to completion with no interleaving: a guard either returns
   immediately (flag already set) or sets the flag and continues. -/
def runAll : SysState → List Action → SysState
  | s, [] => s
  | s, Action.guard :: rest =>
      if s.isShuttingDown then s else runAll ⟨true, s.effects⟩ rest
  | s, Action.effect e :: rest => runAll ⟨s.isShuttingDown, s.effects ++ [e]⟩ rest

/- Run two concurrent calls under an arbitrary scheduler: each Bool of the
   schedule picks which call executes its next atomic step (true = first
   call); when the schedule is exhausted the remaining steps run to
   completion, first call first.  A call whose guard observes the flag set
   returns, discarding its remaining steps. -/
def runPair (s : SysState) (as bs : List Action) : List Bool → SysState
  | [] => runAll (runAll s as) bs
  | true :: sched =>
      match as with
      | [] => runPair s [] bs sched
      | Action.guard :: rest =>
          if s.isShuttingDown then runPair s [] bs sched
          else runPair ⟨true, s.effects⟩ rest bs sched
      | Action.effect e :: rest =>
          runPair ⟨s.isShuttingDown, s.effects ++ [e]⟩ rest bs sched
  | false :: sched =>
      match bs with
      | [] => runPair s as [] sched
      | Action.guard :: rest =>
          if s.isShuttingDown then runPair s as [] sched
          else runPair ⟨true, s.effects⟩ as rest sched
      | Action.effect e :: rest =>
          runPair ⟨s.isShuttingDown, s.effects ++ [e]⟩ as rest sched

def Action.isEffect : Action → Bool
  | Action.guard => false
  | Action.effect _ => true

def effectsOf : List Action → List TeardownStep
  | [] => []
  | Action.guard :: r => effectsOf r
  | Action.effect e :: r => e :: effectsOf r

lemma runAll_effects (as : List Action) :
    ∀ s : SysState, (∀ a ∈ as, a.isEffect = true) →
      runAll s as = ⟨s.isShuttingDown, s.effects ++ effectsOf as⟩ := by
  induction as with
  | nil => intro s _; simp [runAll, effectsOf]
  | cons a rest ih =>
      intro s hall
      rcases a with _ | e
      · exact absurd (hall Action.guard (by simp)) (by simp [Action.isEffect])
      · rw [show runAll s (Action.effect e :: rest)
            = runAll ⟨s.isShuttingDown, s.effects ++ [e]⟩ rest from rfl]
        rw [ih _ (fun a ha => hall a (by simp [ha]))]
        simp [effectsOf]

lemma runAll_guarded (s : SysState) (rest : List Action)
    (h : s.isShuttingDown = true) :
    runAll s (Action.guard :: rest) = s := by
  rw [show runAll s (Action.guard :: rest)
      = if s.isShuttingDown then s else runAll ⟨true, s.effects⟩ rest from rfl]
  rw [h]
  simp

/- A call that is either already finished or still at its guard is dropped
   once the flag is set. -/
def Dropped (bs : List Action) : Prop :=
  bs = [] ∨ ∃ q, bs = Action.guard :: q

lemma runPair_right_dropped (sched : List Bool) :
    ∀ (s : SysState) (as bs : List Action),
      s.isShuttingDown = true → (∀ a ∈ as, a.isEffect = true) → Dropped bs →
      runPair s as bs sched = ⟨true, s.effects ++ effectsOf as⟩ := by
  induction sched with
  | nil =>
      intro s as bs hflag hall hdrop
      show runAll (runAll s as) bs = _
      rw [runAll_effects as s hall]
      rcases hdrop with rfl | ⟨q, rfl⟩
      · rw [show runAll ⟨s.isShuttingDown, s.effects ++ effectsOf as⟩ [] =
            ⟨s.isShuttingDown, s.effects ++ effectsOf as⟩ from rfl, hflag]
      · rw [runAll_guarded _ _ (by simpa using hflag), hflag]
  | cons c sched ih =>
      intro s as bs hflag hall hdrop
      rcases c with _ | _
      · -- c = false: the dropped call takes a step
        rcases hdrop with rfl | ⟨q, rfl⟩
        · show runPair s as [] sched = _
          exact ih s as [] hflag hall (Or.inl rfl)
        · show (if s.isShuttingDown then runPair s as [] sched
              else runPair ⟨true, s.effects⟩ as q sched) = _
          rw [hflag]
          simp only [if_true]
          exact ih s as [] hflag hall (Or.inl rfl)
      · -- c = true: the surviving call takes a step
        rcases as with _ | ⟨a, rest⟩
        · show runPair s [] bs sched = _
          rw [ih s [] bs hflag (by simp) hdrop]
        · rcases a with _ | e
          · exact absurd (hall Action.guard (by simp))
              (by simp [Action.isEffect])
          · show runPair ⟨s.isShuttingDown, s.effects ++ [e]⟩ rest bs sched = _
            rw [ih ⟨s.isShuttingDown, s.effects ++ [e]⟩ rest bs (by simpa using hflag)
              (fun a ha => hall a (by simp [ha])) hdrop]
            simp [effectsOf]

lemma runPair_left_dropped (sched : List Bool) :
    ∀ (s : SysState) (as bs : List Action),
      s.isShuttingDown = true → (∀ a ∈ bs, a.isEffect = true) → Dropped as →
      runPair s as bs sched = ⟨true, s.effects ++ effectsOf bs⟩ := by
  induction sched with
  | nil =>
      intro s as bs hflag hall hdrop
      show runAll (runAll s as) bs = _
      rcases hdrop with rfl | ⟨q, rfl⟩
      · show runAll s bs = _
        rw [runAll_effects bs s hall, hflag]
      · rw [runAll_guarded s q (by simpa using hflag)]
        rw [runAll_effects bs s hall, hflag]
  | cons c sched ih =>
      intro s as bs hflag hall hdrop
      rcases c with _ | _
      · -- c = false: the surviving call takes a step
        rcases bs with _ | ⟨b, rest⟩
        · show runPair s as [] sched = _
          rw [ih s as [] hflag (by simp) hdrop]
        · rcases b with _ | e
          · exact absurd (hall Action.guard (by simp))
              (by simp [Action.isEffect])
          · show runPair ⟨s.isShuttingDown, s.effects ++ [e]⟩ as rest sched = _
            rw [ih ⟨s.isShuttingDown, s.effects ++ [e]⟩ as rest (by simpa using hflag)
              (fun a ha => hall a (by simp [ha])) hdrop]
            simp [effectsOf]
      · -- c = true: the dropped call takes a step
        rcases hdrop with rfl | ⟨q, rfl⟩
        · show runPair s [] bs sched = _
          exact ih s [] bs hflag hall (Or.inl rfl)
        · show (if s.isShuttingDown then runPair s [] bs sched
              else runPair ⟨true, s.effects⟩ q bs sched) = _
          rw [hflag]
          simp only [if_true]
          exact ih s [] bs hflag hall (Or.inl rfl)

/-- Claim C5: shutdown is idempotent.  Two shutdown calls interleaved under
any scheduler, starting from a process that is not yet shutting down,
perform the teardown side effects (viewer close and clear, session
disconnect and clear, WebSocket server close, pipeline teardown, buffer
clear, transport close, runtime stop) exactly once, in program order,
because the isShuttingDown check-and-set is a single event-loop atom; and
a re-entrant call that starts while a shutdown is already in progress is a
no-op leaving flag and effect log untouched. -/
theorem shutdown_idempotent :
    (∀ sched : List Bool,
      runPair ⟨false, []⟩ shutdownProg shutdownProg sched = ⟨true, teardownSeq⟩)
    ∧ (∀ effs : List TeardownStep,
        runAll ⟨true, effs⟩ shutdownProg = ⟨true, effs⟩) := by
  constructor
  · intro sched
    rcases sched with _ | ⟨c, sched⟩
    · decide
    · rcases c with _ | _
      · -- second call moves first and wins the guard
        show runPair ⟨true, []⟩ shutdownProg (shutdownProg.drop 1) sched = _
        rw [runPair_left_dropped sched ⟨true, []⟩ shutdownProg
          (shutdownProg.drop 1) rfl (by decide)
          (Or.inr ⟨shutdownProg.drop 1, rfl⟩)]
        rfl
      · -- first call moves first and wins the guard
        show runPair ⟨true, []⟩ (shutdownProg.drop 1) shutdownProg sched = _
        rw [runPair_right_dropped sched ⟨true, []⟩ (shutdownProg.drop 1)
          shutdownProg rfl (by decide)
          (Or.inr ⟨shutdownProg.drop 1, rfl⟩)]
        rfl
  · intro effs
    show (if (⟨true, effs⟩ : SysState).isShuttingDown then (⟨true, effs⟩ : SysState)
        else runAll ⟨true, effs⟩ (shutdownProg.drop 1)) = ⟨true, effs⟩
    simp

end ZoomDemeanor
